import Mathlib

/-!
Verification development for the `clings` command-line companion for Things 3.

The development embeds, shallowly in Lean, the parts of the program that the
specification's claims are about:

* `parse_date` from `src/cli/args.rs` (the current local date is passed as an
  explicit `Date` argument, standing for the impure clock).
* `ClingsError::from_stderr` from `src/error.rs`.
* `check_bulk_safety`, `search_with_filter` and the bulk commands from
  `src/cli/commands/bulk.rs` (stdin and the Things client are passed as
  explicit arguments, standing for the impure environment).
* `search` from `src/cli/commands/mod.rs` and the error/exit behaviour of
  `main` from `src/main.rs`.
* `ThingsClient::js_string` from `src/things/client.rs`.
* The filter-expression engine (`crate::core`: tokenizer, parser, evaluator,
  `parse_filter`, `filter_items`) and the `Todo` record type
  (`crate::things::types`). These modules are not among the provided sources
  (only their callers are), so they are modelled from the specification, as
  flagged on each definition.
-/

set_option maxRecDepth 4000

namespace Clings

/-- Lowercase one character. ASCII letters are mapped to lowercase and all
other characters are left unchanged, which agrees with Rust's
`str::to_lowercase` and `eq_ignore_ascii_case` on every comparison the
program performs (the keywords compared against are all ASCII). -/
def lowerChar (c : Char) : Char :=
  if 'A' ≤ c ∧ c ≤ 'Z' then Char.ofNat (c.toNat + 32) else c

/-- Characterwise lowercasing of a string. -/
def lowerStr (s : String) : String := String.mk (s.data.map lowerChar)

/-- Is the first list a prefix of the second? -/
def listPrefixOf : List Char → List Char → Bool
  | [], _ => true
  | _ :: _, [] => false
  | a :: as, b :: bs => a = b && listPrefixOf as bs

/-- Is the first list a contiguous sublist of the second? -/
def listInfixOf (pat : List Char) : List Char → Bool
  | [] => listPrefixOf pat []
  | b :: bs => listPrefixOf pat (b :: bs) || listInfixOf pat bs

/-- Rust `str::contains` with a string pattern: substring test. -/
def strContains (s pat : String) : Bool := listInfixOf pat.data s.data

/-- Strip one trailing carriage return, as Rust `str::lines` does for lines
terminated by `\r\n`. -/
def stripCR (l : String) : String :=
  match l.data.reverse with
  | '\r' :: rest => String.mk rest.reverse
  | _ => l

/-- Rust `str::lines`: split on `\n`, strip a `\r` preceding each `\n`, and
treat a final line terminator as optional. -/
def rustLines (s : String) : List String :=
  let parts := s.splitOn "\n"
  (parts.dropLast.map stripCR) ++
    (match parts.getLast? with
     | some last => if last = "" then [] else [last]
     | none => [])

/-- Mirror of `ClingsError` from `src/error.rs`. Payloads that are foreign
error types in Rust (`serde_json::Error` for `Parse`, `std::io::Error` for
`Io`) are modelled as their message strings. -/
inductive ClingsError
  | ThingsNotInstalled
  | ThingsNotRunning
  | PermissionDenied
  | NotFound (msg : String)
  | Script (msg : String)
  | Parse (msg : String)
  | Io (msg : String)
  | Config (msg : String)
  | Database (msg : String)
  | Filter (msg : String)
  | BulkOperation (msg : String)
  | NotSupported (msg : String)
  | InvalidArgument (msg : String)
  deriving DecidableEq, Repr

/-- The permission-denied patterns of `from_stderr` (`src/error.rs:64`). -/
def permPat (s : String) : Bool :=
  strContains s "-1743" || strContains s "not authorized"

/-- The not-installed patterns of `from_stderr` (`src/error.rs:69`). -/
def notInstalledPat (s : String) : Bool :=
  strContains s "Can't get application" ||
  strContains s "Application can't be found" ||
  strContains s "unable to find application"

/-- The not-running patterns of `from_stderr` (`src/error.rs:77`). -/
def notRunningPat (s : String) : Bool :=
  strContains s "Application isn't running" ||
  strContains s "connection is invalid" ||
  strContains s "is not running"

/-- The `NotFound` payload of `from_stderr` (`src/error.rs:86`): the first
line containing `Can't get`, defaulting to the whole stderr text. -/
def notFoundMsg (s : String) : String :=
  ((rustLines s).find? (fun l => strContains l "Can't get")).getD s

/-- `ClingsError::from_stderr` from `src/error.rs` lines 62–95: classify an
osascript stderr string by a fixed pattern priority. -/
def from_stderr (stderr : String) : ClingsError :=
  if permPat stderr then .PermissionDenied
  else if notInstalledPat stderr then .ThingsNotInstalled
  else if notRunningPat stderr then .ThingsNotRunning
  else if strContains stderr "Can't get" then .NotFound (notFoundMsg stderr)
  else .Script stderr

/-- A calendar date, standing for chrono's `NaiveDate` (restricted to
non-negative years, which covers every date the program handles). -/
structure Date where
  year : Nat
  month : Nat
  day : Nat
  deriving DecidableEq, Repr

/-- Gregorian leap-year rule, as implemented by chrono. -/
def isLeapYear (y : Nat) : Bool :=
  (y % 4 = 0 && y % 100 ≠ 0) || y % 400 = 0

/-- Number of days in a month of the Gregorian calendar. -/
def daysInMonth (y m : Nat) : Nat :=
  if m = 2 then (if isLeapYear y then 29 else 28)
  else if m = 4 ∨ m = 6 ∨ m = 9 ∨ m = 11 then 30
  else 31

/-- The successor date: chrono's `date + Duration::days(1)`. -/
def nextDay (d : Date) : Date :=
  if d.day < daysInMonth d.year d.month then ⟨d.year, d.month, d.day + 1⟩
  else if d.month < 12 then ⟨d.year, d.month + 1, 1⟩
  else ⟨d.year + 1, 1, 1⟩

/-- Left-pad a decimal numeral with zeros to the given width. -/
def padZeros (w n : Nat) : String :=
  let s := toString n
  if s.length < w then String.mk (List.replicate (w - s.length) '0') ++ s else s

/-- chrono's `%Y-%m-%d` formatting for non-negative years. -/
def formatDate (d : Date) : String :=
  padZeros 4 d.year ++ "-" ++ padZeros 2 d.month ++ "-" ++ padZeros 2 d.day

/-- `parse_date` from `src/cli/args.rs` lines 528–538. The current local date
(`chrono::Local::now().date_naive()` in the source) is the `today`
argument. -/
def parse_date (today : Date) (date_str : String) : String :=
  match lowerStr date_str with
  | "today" => formatDate today
  | "tomorrow" => formatDate (nextDay today)
  | _ => date_str

/-- Strict lexicographic order on dates: calendar `<` on `NaiveDate`. -/
def dateLt (a b : Date) : Bool :=
  if a.year ≠ b.year then decide (a.year < b.year)
  else if a.month ≠ b.month then decide (a.month < b.month)
  else decide (a.day < b.day)

/-- Value of a decimal digit character. -/
def digitVal (c : Char) : Option Nat :=
  if '0' ≤ c ∧ c ≤ '9' then some (c.toNat - 48) else none

/-- Parse a `YYYY-MM-DD` string into a valid calendar date, as chrono's
`NaiveDate::parse_from_str` with `%Y-%m-%d` does (rejecting out-of-range
months and days). -/
def parseIsoDate (s : String) : Option Date :=
  match s.data with
  | [y1, y2, y3, y4, s1, m1, m2, s2, d1, d2] =>
    if s1 = '-' ∧ s2 = '-' then
      match digitVal y1, digitVal y2, digitVal y3, digitVal y4,
            digitVal m1, digitVal m2, digitVal d1, digitVal d2 with
      | some a, some b, some c, some d, some e, some f, some g, some h =>
        let y := ((a * 10 + b) * 10 + c) * 10 + d
        let m := e * 10 + f
        let dd := g * 10 + h
        if 1 ≤ m ∧ m ≤ 12 ∧ 1 ≤ dd ∧ dd ≤ daysInMonth y m then
          some ⟨y, m, dd⟩
        else none
      | _, _, _, _, _, _, _, _ => none
    else none
  | _ => none

/-- Modelled from the spec: the task status enumeration of the `Record` data
model (§3); the concrete `Todo` type lives in `src/things/types.rs`, which is
not among the provided sources. (`open_` stands for the Rust variant `open`,
which is a reserved word in Lean.) -/
inductive Status
  | open_
  | completed
  | canceled
  deriving DecidableEq, Repr

/-- The string form of a status, used for case-insensitive comparisons. -/
def statusStr : Status → String
  | .open_ => "open"
  | .completed => "completed"
  | .canceled => "canceled"

/-- Modelled from the spec: the `Record`/`Todo` entity of §3, defined in
`src/things/types.rs` which is not among the provided sources. Fields follow
§3 (`name`, `notes`, `status`, optional `due_date`, `tags`, optional
`project`, optional `area`) plus the `id` displayed by bulk previews in
`src/cli/commands/bulk.rs`. -/
structure Todo where
  id : String
  name : String
  notes : String
  status : Status
  due_date : Option Date
  tags : List String
  project : Option String
  area : Option String
  deriving DecidableEq, Repr

/-- Modelled from the spec: the token type of the tokenizer (§3 "Token", §4.1);
`crate::core`, where the filter engine lives, is not among the provided
sources. Source byte offsets carried by tokens for error reporting are
elided — no claim depends on them. -/
inductive Token
  | ident (s : String)
  | strLit (s : String)
  | opEq | opNe | opLt | opGt | opLike | opContains | opIsNull
  | andKw | orKw | notKw
  | lparen | rparen
  | eof
  deriving DecidableEq, Repr

/-- Modelled from the spec: the lexer error taxonomy (§4.1, §7), offsets
elided. -/
inductive LexError
  | UnexpectedCharacter (c : Char)
  | UnterminatedString
  deriving DecidableEq, Repr

/-- Modelled from the spec: the closed field enumeration (§3 "Field"). -/
inductive Field
  | Status | Due | Tags | Project | Area | Name | Notes
  deriving DecidableEq, Repr

/-- Modelled from the spec: the closed operator enumeration (§3 "Operator"). -/
inductive Operator
  | Equals | NotEquals | LessThan | GreaterThan | Like | Contains | IsNull
  deriving DecidableEq, Repr

/-- Modelled from the spec: literals (§3 "Literal"): quoted text, or a bare
word treated as a date keyword / explicit date, resolved only at evaluation
time. -/
inductive Literal
  | text (s : String)
  | dateKeyword (s : String)
  deriving DecidableEq, Repr

/-- Modelled from the spec: the expression AST (§3 "Expression"). `IS NULL`
comparisons take no literal (§4.2), so the literal is optional. -/
inductive Expression
  | comparison (field : Field) (op : Operator) (lit : Option Literal)
  | and (a b : Expression)
  | or (a b : Expression)
  | not (a : Expression)
  deriving DecidableEq, Repr

/-- Modelled from the spec: the parser error taxonomy (§4.2, §7); offsets and
"expected" descriptions are elided — no claim depends on them. -/
inductive ParseError
  | UnexpectedToken (t : Token)
  | UnexpectedEnd
  | UnbalancedParens
  | UnknownField (f : String)
  | OperatorNotValidForField (f : Field) (op : Operator)
  | TrailingInput
  deriving DecidableEq, Repr

/-- Characters that may appear in a bare word: letters, digits, and the `_`
and `-` used in explicit `YYYY-MM-DD` dates. -/
def wordChar (c : Char) : Bool := c.isAlphanum || c = '_' || c = '-'

/-- Keyword recognition for a completed bare word (§4.1): logical keywords and
word-shaped operators, case-insensitively; everything else is an
identifier. (`IS`/`NULL` are combined by `isNullMerge`.) -/
def tokWord (w : String) : Token :=
  match lowerStr w with
  | "and" => .andKw
  | "or" => .orKw
  | "not" => .notKw
  | "like" => .opLike
  | "contains" => .opContains
  | _ => .ident w

/-- ASCII whitespace skipped between tokens (§4.1). -/
def isWs (c : Char) : Bool := c = ' ' || c = '\t' || c = '\n' || c = '\r'

/-- Single-character punctuation and operator tokens (§4.1). -/
def punct (c : Char) : Option Token :=
  if c = '(' then some .lparen
  else if c = ')' then some .rparen
  else if c = '=' then some .opEq
  else if c = '<' then some .opLt
  else if c = '>' then some .opGt
  else none

/-- Tokenizer state: between tokens, after `!`, inside a bare word, or inside
a quoted string (with the opening quote character). -/
inductive TokState
  | normal
  | bang
  | word (acc : List Char)
  | quoted (q : Char) (acc : List Char)

/-- Modelled from the spec: the tokenizer scan loop (§4.1), written as a
character-at-a-time state machine so that it is structurally recursive. -/
def tokenizeLoop : TokState → List Char → Except LexError (List Token)
  | .normal, [] => .ok []
  | .normal, c :: cs =>
    if isWs c then tokenizeLoop .normal cs
    else match punct c with
    | some t => (tokenizeLoop .normal cs).map (t :: ·)
    | none =>
      if c = '!' then tokenizeLoop .bang cs
      else if c = '\'' || c = '"' then tokenizeLoop (.quoted c []) cs
      else if wordChar c then tokenizeLoop (.word [c]) cs
      else .error (.UnexpectedCharacter c)
  | .bang, [] => .error (.UnexpectedCharacter '!')
  | .bang, c :: cs =>
    if c = '=' then (tokenizeLoop .normal cs).map (Token.opNe :: ·)
    else .error (.UnexpectedCharacter '!')
  | .quoted _ _, [] => .error .UnterminatedString
  | .quoted q acc, c :: cs =>
    if c = q then (tokenizeLoop .normal cs).map (Token.strLit (String.mk acc.reverse) :: ·)
    else tokenizeLoop (.quoted q (c :: acc)) cs
  | .word acc, [] => .ok [tokWord (String.mk acc.reverse)]
  | .word acc, c :: cs =>
    if wordChar c then tokenizeLoop (.word (c :: acc)) cs
    else
      let tk := tokWord (String.mk acc.reverse)
      if isWs c then (tokenizeLoop .normal cs).map (tk :: ·)
      else match punct c with
      | some t => (tokenizeLoop .normal cs).map (fun ts => tk :: t :: ts)
      | none =>
        if c = '!' then (tokenizeLoop .bang cs).map (tk :: ·)
        else if c = '\'' || c = '"' then (tokenizeLoop (.quoted c []) cs).map (tk :: ·)
        else .error (.UnexpectedCharacter c)

/-- Modelled from the spec: adjacent `IS` `NULL` bare words become the single
two-word operator token (§4.1). -/
def isNullMergeGo (pending : Option String) : List Token → List Token
  | [] => (match pending with | some a => [.ident a] | none => [])
  | t :: rest =>
    match pending, t with
    | some a, .ident b =>
      if lowerStr a = "is" ∧ lowerStr b = "null" then .opIsNull :: isNullMergeGo none rest
      else .ident a :: isNullMergeGo (some b) rest
    | some a, _ => .ident a :: t :: isNullMergeGo none rest
    | none, .ident b => isNullMergeGo (some b) rest
    | none, _ => t :: isNullMergeGo none rest

/-- Entry point for the `IS NULL` merge pass. -/
def isNullMerge (ts : List Token) : List Token := isNullMergeGo none ts

/-- Modelled from the spec: `tokenize` (§4.1); terminates the stream with an
explicit `Eof` token. -/
def tokenize (text : String) : Except LexError (List Token) :=
  (tokenizeLoop .normal text.data).map (fun ts => isNullMerge ts ++ [.eof])

/-- Case-insensitive field-name resolution (§3 "Field"); an unrecognized
identifier is a parse-time `UnknownField` error. -/
def fieldOf (f : String) : Option Field :=
  match lowerStr f with
  | "status" => some .Status
  | "due" => some .Due
  | "tags" => some .Tags
  | "project" => some .Project
  | "area" => some .Area
  | "name" => some .Name
  | "notes" => some .Notes
  | _ => none

/-- Modelled from the spec: which operators are valid for which field (§3
"Operator", §4.3). String fields take `=`, `!=`, `LIKE`; `CONTAINS` is
additionally valid for `tags`, `notes`, `name`; ordering operators only for
`due`; `IS NULL` for the optional fields, for `tags` (empty set), and for
`notes` (empty string), the latter per the §8 scenario
`notes IS NULL`. -/
def opValid (f : Field) (op : Operator) : Bool :=
  match f, op with
  | .Status, .Equals | .Status, .NotEquals | .Status, .Like => true
  | .Due, .Equals | .Due, .NotEquals | .Due, .LessThan
  | .Due, .GreaterThan | .Due, .IsNull => true
  | .Tags, .Contains | .Tags, .IsNull => true
  | .Project, .Equals | .Project, .NotEquals | .Project, .Like
  | .Project, .IsNull => true
  | .Area, .Equals | .Area, .NotEquals | .Area, .Like | .Area, .IsNull => true
  | .Name, .Equals | .Name, .NotEquals | .Name, .Like | .Name, .Contains => true
  | .Notes, .Equals | .Notes, .NotEquals | .Notes, .Like
  | .Notes, .Contains | .Notes, .IsNull => true
  | _, _ => false

/-- The operator denoted by an operator token, if any. -/
def opOf : Token → Option Operator
  | .opEq => some .Equals
  | .opNe => some .NotEquals
  | .opLt => some .LessThan
  | .opGt => some .GreaterThan
  | .opLike => some .Like
  | .opContains => some .Contains
  | _ => none

/-- The literal denoted by a token, if any: quoted strings are text literals,
bare words are date-keyword/bareword literals (§6 `literal`). -/
def litOf : Token → Option Literal
  | .strLit s => some (.text s)
  | .ident w => some (.dateKeyword w)
  | _ => none

/-- Modelled from the spec: the `comparison` production (§4.2, §6):
`field operator literal`, or `field IS NULL` which takes no literal; operator
validity is checked against the field at parse time. -/
def parseComparison (f : String) (ts : List Token) :
    Except ParseError (Expression × List Token) :=
  match fieldOf f with
  | none => .error (.UnknownField f)
  | some fld =>
    match ts with
    | .opIsNull :: rest =>
      if opValid fld .IsNull then .ok (.comparison fld .IsNull none, rest)
      else .error (.OperatorNotValidForField fld .IsNull)
    | t :: t2 :: rest =>
      match opOf t with
      | none => if t = .eof then .error .UnexpectedEnd else .error (.UnexpectedToken t)
      | some op =>
        match litOf t2 with
        | none => if t2 = .eof then .error .UnexpectedEnd else .error (.UnexpectedToken t2)
        | some lit =>
          if opValid fld op then .ok (.comparison fld op (some lit), rest)
          else .error (.OperatorNotValidForField fld op)
    | [t] =>
      match opOf t with
      | some _ => .error .UnexpectedEnd
      | none => if t = .eof then .error .UnexpectedEnd else .error (.UnexpectedToken t)
    | [] => .error .UnexpectedEnd

/-- The grammar production (or loop continuation) the parser is working on:
`or_expr`, `and_expr`, `not_expr`, or the Kleene-star tails of the `OR` and
`AND` chains with the expression accumulated so far. -/
inductive PStage
  | orE
  | andE
  | notE
  | orRest (acc : Expression)
  | andRest (acc : Expression)

/-- Modelled from the spec: the recursive-descent parser (§4.2) for the §6
grammar, with precedence `OR` < `AND` < `NOT` < comparison < parentheses and
left-associative `OR`/`AND` chains. The five mutually recursive procedures
are indexed by `PStage` and structural recursion is on a fuel argument; fuel
`5 * length + 5` (supplied by `parse`) always suffices, since every recursive
step either consumes a token or moves one stage down the fixed
or/and/not chain. Exhausted fuel reports `UnexpectedEnd`, a branch no input
reaches from `parse`. -/
def parseF : Nat → PStage → List Token → Except ParseError (Expression × List Token)
  | 0, _, _ => .error .UnexpectedEnd
  | n + 1, .orE, ts =>
    (parseF n .andE ts).bind fun er => parseF n (.orRest er.1) er.2
  | n + 1, .orRest acc, ts =>
    match ts with
    | .orKw :: rest =>
      (parseF n .andE rest).bind fun er => parseF n (.orRest (.or acc er.1)) er.2
    | _ => .ok (acc, ts)
  | n + 1, .andE, ts =>
    (parseF n .notE ts).bind fun er => parseF n (.andRest er.1) er.2
  | n + 1, .andRest acc, ts =>
    match ts with
    | .andKw :: rest =>
      (parseF n .notE rest).bind fun er => parseF n (.andRest (.and acc er.1)) er.2
    | _ => .ok (acc, ts)
  | n + 1, .notE, ts =>
    match ts with
    | .notKw :: rest => (parseF n .notE rest).map fun er => (.not er.1, er.2)
    | .lparen :: rest =>
      (parseF n .orE rest).bind fun er =>
        match er.2 with
        | .rparen :: r2 => .ok (er.1, r2)
        | _ => .error .UnbalancedParens
    | .ident f :: rest => parseComparison f rest
    | .eof :: _ => .error .UnexpectedEnd
    | t :: _ => .error (.UnexpectedToken t)
    | [] => .error .UnexpectedEnd

/-- Modelled from the spec: `parse` (§4.2) — the whole token stream must form
exactly one expression, with only the `Eof` terminator left over; anything
else before `Eof` is `TrailingInput`. -/
def parse (ts : List Token) : Except ParseError Expression :=
  (parseF (5 * ts.length + 5) .orE ts).bind fun er =>
    match er.2 with
    | [.eof] => .ok er.1
    | _ => .error .TrailingInput

/-- Rendering of lexer errors into a user-facing message; the caret-pointer
diagnostics of §4.4 are abstracted to a plain message (no claim inspects
message text). -/
def lexErrorMsg : LexError → String
  | .UnexpectedCharacter c => "Unexpected character: " ++ String.mk [c]
  | .UnterminatedString => "Unterminated string"

/-- Rendering of parser errors into a user-facing message (abstracted as for
`lexErrorMsg`). -/
def parseErrorMsg : ParseError → String
  | .UnexpectedToken _ => "Unexpected token"
  | .UnexpectedEnd => "Unexpected end of input"
  | .UnbalancedParens => "Unbalanced parentheses"
  | .UnknownField f => "Unknown field: " ++ f
  | .OperatorNotValidForField _ _ => "Operator not valid for field"
  | .TrailingInput => "Trailing input after expression"

/-- Modelled from the spec: the engine facade `parse_filter` (§4.4): composes
tokenizer and parser and wraps either error into the caller-facing error type
(`ClingsError::Filter`, the form in which `src/cli/commands/bulk.rs` receives
it through `?`). -/
def parse_filter (text : String) : Except ClingsError Expression :=
  match tokenize text with
  | .error le => .error (.Filter (lexErrorMsg le))
  | .ok ts =>
    match parse ts with
    | .error pe => .error (.Filter (parseErrorMsg pe))
    | .ok e => .ok e

/-- The payload string of a literal. -/
def litStr : Literal → String
  | .text s => s
  | .dateKeyword s => s

/-- Modelled from the spec: date-keyword resolution at evaluation time (§4.3):
`today` is the current local date (the `today` argument), `tomorrow` is that
date plus one day, and any other string is parsed as an explicit
`YYYY-MM-DD` date. -/
def resolveDate (today : Date) (s : String) : Option Date :=
  if lowerStr s = "today" then some today
  else if lowerStr s = "tomorrow" then some (nextDay today)
  else parseIsoDate s

/-- Modelled from the spec: case-insensitive scalar string comparison (§4.3):
`Equals` is full-string match, `Like` is substring match, and `Contains` on a
scalar string field behaves like `Like`. -/
def strMatch (op : Operator) (value pat : String) : Bool :=
  match op with
  | .Equals => lowerStr value == lowerStr pat
  | .NotEquals => !(lowerStr value == lowerStr pat)
  | .Like => listInfixOf (lowerStr pat).data (lowerStr value).data
  | .Contains => listInfixOf (lowerStr pat).data (lowerStr value).data
  | _ => false

/-- Modelled from the spec: `IS NULL` semantics (§4.3): true exactly when an
optional field is absent, the tag set is empty, or — per the §8 scenario — the
notes string is empty. `status`/`name` never parse with `IS NULL`, so those
branches are unreachable from parsed expressions. -/
def evalIsNull (f : Field) (r : Todo) : Bool :=
  match f with
  | .Due => r.due_date.isNone
  | .Project => r.project.isNone
  | .Area => r.area.isNone
  | .Tags => r.tags.isEmpty
  | .Notes => r.notes == ""
  | .Status => false
  | .Name => false

/-- Modelled from the spec: evaluation of one comparison (§4.3). An absent
optional field satisfies no comparison other than `IS NULL`; `Contains` on
`tags` is case-insensitive set membership; date comparisons resolve the
literal at evaluation time and compare calendar dates. -/
def evalComparison (today : Date) (f : Field) (op : Operator)
    (lit : Option Literal) (r : Todo) : Bool :=
  if op = .IsNull then evalIsNull f r
  else match lit with
  | none => false
  | some l =>
    match f with
    | .Status => strMatch op (statusStr r.status) (litStr l)
    | .Name => strMatch op r.name (litStr l)
    | .Notes => strMatch op r.notes (litStr l)
    | .Project =>
      (match r.project with
       | none => false
       | some p => strMatch op p (litStr l))
    | .Area =>
      (match r.area with
       | none => false
       | some a => strMatch op a (litStr l))
    | .Tags =>
      (match op with
       | .Contains => r.tags.any (fun t => lowerStr t == lowerStr (litStr l))
       | _ => false)
    | .Due =>
      (match r.due_date with
       | none => false
       | some d =>
         match resolveDate today (litStr l) with
         | none => false
         | some ld =>
           match op with
           | .Equals => d == ld
           | .NotEquals => !(d == ld)
           | .LessThan => dateLt d ld
           | .GreaterThan => dateLt ld d
           | _ => false)

/-- Modelled from the spec: the pure evaluator (§4.3), total and infallible.
`&&`/`||` are short-circuiting, matching §4.3 (with no observable difference,
evaluation being pure); `today` stands for the evaluation-time clock. -/
def evaluate (today : Date) : Expression → Todo → Bool
  | .comparison f op lit, r => evalComparison today f op lit r
  | .and a b, r => evaluate today a r && evaluate today b r
  | .or a b, r => evaluate today a r || evaluate today b r
  | .not a, r => !(evaluate today a r)

/-- Modelled from the spec: the engine facade `filter_items` (§4.4): apply
`evaluate` to each record in input order, keeping the matches in the same
relative order; total (never an error). -/
def filter_items (today : Date) (records : List Todo) (e : Expression) : List Todo :=
  records.filter (fun r => evaluate today e r)

/-- Mirror of `OutputFormat` from `src/cli/args.rs` lines 39–45. -/
inductive OutputFormat
  | Pretty
  | Json
  deriving DecidableEq, Repr

/-- `search_with_filter` from `src/cli/commands/bulk.rs` lines 133–143. The
Things client call is passed as the pre-supplied `all_todos` result and the
renderer (`format_todos`, from the `crate::output` module that is not among
the provided sources) as the `fmt` argument, so every theorem about this
function holds for every client outcome and every renderer. -/
def search_with_filter (all_todos : Except ClingsError (List Todo))
    (fmt : List Todo → String → OutputFormat → Except ClingsError String)
    (today : Date) (filter_query : String) (format : OutputFormat) :
    Except ClingsError String :=
  all_todos.bind fun todos =>
  (parse_filter filter_query).bind fun expr =>
  fmt (filter_items today todos expr)
    ("Filter: \"" ++ filter_query ++ "\"") format

/-- `search` from `src/cli/commands/mod.rs` lines 162–223. Client calls
(`client.search q`, `client.get_list Anytime`) and the renderer are passed as
arguments; `today` feeds `parse_date` for the `--due` filter. -/
def search (all_todos : Except ClingsError (List Todo))
    (search_results : String → Except ClingsError (List Todo))
    (anytime_list : Except ClingsError (List Todo))
    (fmt : List Todo → String → OutputFormat → Except ClingsError String)
    (today : Date) (query tag project due filterQ : Option String)
    (format : OutputFormat) : Except ClingsError String :=
  match filterQ with
  | some filter_expr => search_with_filter all_todos fmt today filter_expr format
  | none =>
    (match query with
     | some q => search_results q
     | none => anytime_list).bind fun todos =>
    let filtered := todos.filter fun (t : Todo) =>
      (match tag with
       | none => true
       | some tf => t.tags.any fun tt => lowerStr tt == lowerStr tf) &&
      (match project with
       | none => true
       | some pf =>
         match t.project with
         | some p => lowerStr p == lowerStr pf
         | none => false) &&
      (match due with
       | none => true
       | some df =>
         match t.due_date with
         | some d => formatDate d == parse_date today df
         | none => false)
    let title :=
      match query with
      | none => "Search Results"
      | some q => "Search: \"" ++ q ++ "\""
    fmt filtered title format

/-- The error handling of `main` from `src/main.rs` lines 10–15: a `run()`
error is printed and the process exits with status 1; success exits with
status 0. -/
def mainExitCode (result : Except ClingsError String) : Nat :=
  match result with
  | .error _ => 1
  | .ok _ => 0

/-- Mirror of `BulkSafetyOptions` from `src/cli/commands/bulk.rs`
lines 27–34. -/
structure BulkSafetyOptions where
  skip_confirmation : Bool
  limit : Nat
  dry_run : Bool

/-- The over-limit error message built at `src/cli/commands/bulk.rs:56`. -/
def limitMsg (total limit : Nat) : String :=
  "Operation would affect " ++ toString total ++
  " items, which exceeds the limit of " ++ toString limit ++ ".\n" ++
  "Use --limit " ++ toString total ++
  " to increase the limit, or --yes to skip this check.\n" ++
  "Use --dry-run first to preview what would be affected."

/-- `check_bulk_safety` from `src/cli/commands/bulk.rs` lines 45–123. The
stdin confirmation line is the `stdin` argument (`.error` standing for an IO
failure of flush/read, mapped to `BulkOperation` as in the source); the
preview printing has no effect on the result and is elided. -/
def check_bulk_safety (todos : List Todo) (_action_name : String)
    (options : BulkSafetyOptions) (stdin : Except String String) :
    Except ClingsError (List Todo) :=
  let total_matched := todos.length
  let step1 : Except ClingsError (List Todo) :=
    if options.limit > 0 ∧ todos.length > options.limit then
      if !options.skip_confirmation then
        .error (.BulkOperation (limitMsg total_matched options.limit))
      else .ok (todos.take options.limit)
    else .ok todos
  step1.bind fun filtered =>
  if options.dry_run || options.skip_confirmation then .ok filtered
  else if filtered.length > 5 then
    match stdin with
    | .error e => .error (.BulkOperation e)
    | .ok input =>
      if lowerStr input.trim ≠ "yes" then
        .error (.BulkOperation "Operation cancelled by user. No changes were made.")
      else .ok filtered
  else .ok filtered

/-- The missing-filter message of `bulk_complete`
(`src/cli/commands/bulk.rs:184`), abbreviated to its first line (no claim
inspects it). -/
def missingFilterMsg : String := "Filter required for bulk complete."

/-- `bulk_complete` from `src/cli/commands/bulk.rs` lines 176–209. The client
call is the `all_todos` argument, and everything downstream of the safety
check (`BulkOperation::new`, `execute_bulk_operation`, summary formatting —
all in modules not among the provided sources) is the `run_op` argument. -/
def bulk_complete (all_todos : Except ClingsError (List Todo))
    (run_op : String → List Todo → Except ClingsError String)
    (stdin : Except String String) (today : Date)
    (filter_query : Option String) (dry_run skip_confirmation : Bool)
    (limit : Nat) : Except ClingsError String :=
  match filter_query with
  | none => .error (.BulkOperation missingFilterMsg)
  | some fq =>
    all_todos.bind fun all =>
    (parse_filter fq).bind fun expr =>
    (check_bulk_safety (filter_items today all expr) "COMPLETE"
      ⟨skip_confirmation, limit, dry_run⟩ stdin).bind fun todos_to_process =>
    run_op fq todos_to_process

/-- Lowercase hexadecimal digit character for a value below 16, as used by
serde_json's `\uXXXX` escapes. -/
def hexDigit (n : Nat) : Char :=
  if n < 10 then Char.ofNat (48 + n) else Char.ofNat (87 + n)

/-- serde_json's escaping of one character inside a double-quoted JSON string
(`serde_json::to_string` on a string value): `"` and `\` get a backslash
escape, the control characters BS/TAB/LF/FF/CR get their short escapes, the
remaining characters below U+0020 become `\u00XX`, and every other character
— including all non-ASCII text — is emitted verbatim. -/
def escJsonChar (c : Char) : List Char :=
  if c = '"' then ['\\', '"']
  else if c = '\\' then ['\\', '\\']
  else if c.toNat = 8 then ['\\', 'b']
  else if c.toNat = 9 then ['\\', 't']
  else if c.toNat = 10 then ['\\', 'n']
  else if c.toNat = 12 then ['\\', 'f']
  else if c.toNat = 13 then ['\\', 'r']
  else if c.toNat < 32 then
    ['\\', 'u', '0', '0', hexDigit (c.toNat / 16), hexDigit (c.toNat % 16)]
  else [c]

/-- `ThingsClient::js_string` from `src/things/client.rs` lines 1634–1647:
JSON-encode a string (serde_json's encoding, `escJsonChar` per character,
wrapped in double quotes). The source's manual-escaping fallback is dead
code — `serde_json::to_string` on a string value is infallible — and is not
modelled. -/
def js_string (s : String) : String :=
  String.mk ('"' :: s.data.flatMap escJsonChar ++ ['"'])

/-- Value of a hexadecimal digit character (either case), for `\uXXXX`
escapes. -/
def hexVal (c : Char) : Option Nat :=
  if '0' ≤ c ∧ c ≤ '9' then some (c.toNat - 48)
  else if 'a' ≤ c ∧ c ≤ 'f' then some (c.toNat - 87)
  else if 'A' ≤ c ∧ c ≤ 'F' then some (c.toNat - 55)
  else none

/-- The character denoted by a single-character backslash escape, per
RFC 8259: `\" \\ \/ \b \f \n \r \t`. -/
def unescape (e : Char) : Option Char :=
  if e = '"' then some '"'
  else if e = '\\' then some '\\'
  else if e = '/' then some '/'
  else if e = 'b' then some (Char.ofNat 8)
  else if e = 'f' then some (Char.ofNat 12)
  else if e = 'n' then some (Char.ofNat 10)
  else if e = 'r' then some (Char.ofNat 13)
  else if e = 't' then some (Char.ofNat 9)
  else none

/-- The value of four hexadecimal digit characters, if all four are
hexadecimal digits. -/
def hexQuad (a b c d : Char) : Option Nat :=
  (hexVal a).bind fun x => (hexVal b).bind fun y =>
  (hexVal c).bind fun z => (hexVal d).map fun w =>
    ((x * 16 + y) * 16 + z) * 16 + w

/-- Body of a strict JSON string-literal parser: decodes characters up to a
closing `"`, which must end the input. Backslash escapes follow RFC 8259
(`\" \\ \/ \b \f \n \r \t \uXXXX`); unescaped control characters are
rejected, as are `\uXXXX` escapes in the surrogate range (this parser does
not combine surrogate pairs — `js_string` never emits them). -/
def parseJsonBody : List Char → Option (List Char)
  | [] => none
  | '"' :: rest => if rest = [] then some [] else none
  | '\\' :: e :: rest =>
    if e = 'u' then
      match rest with
      | h1 :: h2 :: h3 :: h4 :: rest2 =>
        (match hexQuad h1 h2 h3 h4 with
         | some v =>
           if 0xD800 ≤ v ∧ v < 0xE000 then none
           else (parseJsonBody rest2).map (Char.ofNat v :: ·)
         | none => none)
      | _ => none
    else
      match unescape e with
      | some d => (parseJsonBody rest).map (d :: ·)
      | none => none
  | c :: rest =>
    if c.toNat < 32 then none
    else (parseJsonBody rest).map (c :: ·)

/-- A strict JSON string-literal parser over a whole string: an opening `"`,
a body, and a closing `"` ending the input. Inverse direction of the
`js_string` round trip. -/
def parseJsonString (s : String) : Option String :=
  match s.data with
  | '"' :: rest => (parseJsonBody rest).map String.mk
  | _ => none

/-! ## Theorems for the claims -/

/-- C1: for every evaluation date, expression and finite record list,
`filter_items` returns a sublist of its input (so a subset by identity,
preserving relative order), whose members are exactly the input records on
which `evaluate` returns true; its length never exceeds the input length; an
empty input yields an empty output, and an expression matching no record
yields an empty output. The function is total, so no input yields an
error. -/
theorem filter_items_spec (today : Date) (e : Expression) (rs : List Todo) :
    (filter_items today rs e).Sublist rs ∧
    (∀ r, r ∈ filter_items today rs e ↔ r ∈ rs ∧ evaluate today e r = true) ∧
    (filter_items today rs e).length ≤ rs.length ∧
    filter_items today [] e = [] ∧
    ((∀ r ∈ rs, evaluate today e r = false) → filter_items today rs e = []) := by
  refine ⟨List.filter_sublist _, fun r => ?_, List.length_filter_le _ _, rfl,
    fun h => ?_⟩
  · simp [filter_items, List.mem_filter]
  · simp only [filter_items, List.filter_eq_nil_iff]
    intro a ha
    simp [h a ha]

/-- C1 witness: a concrete record matching nothing yields the empty output. -/
theorem filter_items_spec_witness :
    filter_items ⟨2026, 1, 1⟩
      [⟨"1", "A", "", .completed, none, [], none, none⟩]
      (.comparison .Status .Equals (some (.text "open"))) = [] :=
  (filter_items_spec ⟨2026, 1, 1⟩
      (.comparison .Status .Equals (some (.text "open")))
      [⟨"1", "A", "", .completed, none, [], none, none⟩]).2.2.2.2
    (by decide)

/-- C4: a comparison on the `due` field with `Equals`, `NotEquals`,
`LessThan` or `GreaterThan` evaluates to `false` on every record whose
`due_date` is absent — absence never satisfies a comparison other than
`IS NULL`. -/
theorem due_absent_never_matches (today : Date) (r : Todo) (op : Operator)
    (lit : Option Literal) (hdue : r.due_date = none)
    (hop : op = .Equals ∨ op = .NotEquals ∨ op = .LessThan ∨ op = .GreaterThan) :
    evaluate today (.comparison .Due op lit) r = false := by
  rcases hop with rfl | rfl | rfl | rfl <;>
    cases lit <;> simp [evaluate, evalComparison, hdue]

/-- C4 witness: a concrete record with no due date fails a concrete `due <
today` comparison. -/
theorem due_absent_never_matches_witness :
    evaluate ⟨2026, 1, 1⟩
      (.comparison .Due .LessThan (some (.dateKeyword "today")))
      ⟨"1", "A", "", .open_, none, [], none, none⟩ = false :=
  due_absent_never_matches ⟨2026, 1, 1⟩
    ⟨"1", "A", "", .open_, none, [], none, none⟩ .LessThan
    (some (.dateKeyword "today")) rfl (Or.inr (Or.inr (Or.inl rfl)))

/-- C5: `parse_filter` accepts the text `notes IS NULL`, producing the
`notes IS NULL` comparison, and that expression evaluates to true on exactly
the records whose `notes` string is empty. -/
theorem notes_is_null_spec :
    parse_filter "notes IS NULL" = .ok (.comparison .Notes .IsNull none) ∧
    ∀ (today : Date) (r : Todo),
      evaluate today (.comparison .Notes .IsNull none) r = true ↔ r.notes = "" := by
  refine ⟨rfl, fun today r => ?_⟩
  simp [evaluate, evalComparison, evalIsNull]

/-- C6: `filter_items` is idempotent — filtering an already-filtered list
with the same expression returns the identical list. -/
theorem filter_items_idempotent (today : Date) (e : Expression) (rs : List Todo) :
    filter_items today (filter_items today rs e) e = filter_items today rs e := by
  simp [filter_items, List.filter_filter]

/-- C7: `parse_date` maps any spelling of `today` (case-insensitively) to the
current local date formatted `YYYY-MM-DD`, any spelling of `tomorrow` to the
next calendar day so formatted, and returns every other string unchanged. -/
theorem parse_date_spec (today : Date) (s : String) :
    (lowerStr s = "today" → parse_date today s = formatDate today) ∧
    (lowerStr s = "tomorrow" → parse_date today s = formatDate (nextDay today)) ∧
    (lowerStr s ≠ "today" → lowerStr s ≠ "tomorrow" → parse_date today s = s) := by
  refine ⟨fun h => ?_, fun h => ?_, fun h1 h2 => ?_⟩ <;>
    simp only [parse_date] <;> split <;> simp_all

/-- C7 witness: concrete requests on 2026-12-31, including case-insensitivity
and month/year rollover for `tomorrow`. -/
theorem parse_date_spec_witness :
    parse_date ⟨2026, 12, 31⟩ "TODAY" = "2026-12-31" ∧
    parse_date ⟨2026, 12, 31⟩ "tomorrow" = "2027-01-01" ∧
    parse_date ⟨2026, 12, 31⟩ "2024-12-15" = "2024-12-15" :=
  ⟨((parse_date_spec ⟨2026, 12, 31⟩ "TODAY").1 (by decide)).trans (by decide),
   ((parse_date_spec ⟨2026, 12, 31⟩ "tomorrow").2.1 (by decide)).trans (by decide),
   (parse_date_spec ⟨2026, 12, 31⟩ "2024-12-15").2.2 (by decide) (by decide)⟩

/-- C8: when the matched list exceeds a positive limit, `check_bulk_safety`
without `--yes` returns an error (whatever `dry_run` says and before any item
is processed), and with `--yes` returns exactly the first `limit` todos in
input order. -/
theorem check_bulk_safety_limit (todos : List Todo) (name : String)
    (opts : BulkSafetyOptions) (stdin : Except String String)
    (hpos : 0 < opts.limit) (hover : opts.limit < todos.length) :
    (opts.skip_confirmation = false →
      check_bulk_safety todos name opts stdin =
        .error (.BulkOperation (limitMsg todos.length opts.limit))) ∧
    (opts.skip_confirmation = true →
      check_bulk_safety todos name opts stdin = .ok (todos.take opts.limit)) := by
  constructor <;> intro hs <;>
    simp [check_bulk_safety, hpos, hover, hs, Except.bind]

/-- C8 witness: seven concrete todos against limit 2, in both confirmation
modes (the error side with `dry_run := true`). -/
theorem check_bulk_safety_limit_witness :
    (check_bulk_safety
      (List.range 7 |>.map fun i => ⟨toString i, "T", "", .open_, none, [], none, none⟩)
      "COMPLETE" ⟨false, 2, true⟩ (.ok "yes") =
      .error (.BulkOperation (limitMsg 7 2))) ∧
    (check_bulk_safety
      (List.range 7 |>.map fun i => ⟨toString i, "T", "", .open_, none, [], none, none⟩)
      "COMPLETE" ⟨true, 2, false⟩ (.ok "yes") =
      .ok [⟨"0", "T", "", .open_, none, [], none, none⟩,
           ⟨"1", "T", "", .open_, none, [], none, none⟩]) := by
  constructor
  · exact ((check_bulk_safety_limit _ "COMPLETE" ⟨false, 2, true⟩ (.ok "yes")
      (by decide) (by decide)).1 rfl).trans rfl
  · exact ((check_bulk_safety_limit _ "COMPLETE" ⟨true, 2, false⟩ (.ok "yes")
      (by decide) (by decide)).2 rfl).trans rfl

/-- C9: `from_stderr` classifies by a fixed priority: `PermissionDenied`
whenever its patterns match, regardless of any other pattern; otherwise
`ThingsNotInstalled` on its patterns, then `ThingsNotRunning`, then
`NotFound` on `Can't get`, and `Script` carrying the whole stderr text as
the fallback for every remaining string. -/
theorem from_stderr_priority (s : String) :
    (permPat s = true → from_stderr s = .PermissionDenied) ∧
    (permPat s = false → notInstalledPat s = true →
      from_stderr s = .ThingsNotInstalled) ∧
    (permPat s = false → notInstalledPat s = false → notRunningPat s = true →
      from_stderr s = .ThingsNotRunning) ∧
    (permPat s = false → notInstalledPat s = false → notRunningPat s = false →
      strContains s "Can't get" = true →
      from_stderr s = .NotFound (notFoundMsg s)) ∧
    (permPat s = false → notInstalledPat s = false → notRunningPat s = false →
      strContains s "Can't get" = false → from_stderr s = .Script s) := by
  refine ⟨?_, ?_, ?_, ?_, ?_⟩ <;> intros <;> simp [from_stderr, *]

/-- C9 witness: a stderr line matching both the permission and the
not-installed patterns is classified `PermissionDenied`, and the empty string
falls through to `Script`. -/
theorem from_stderr_priority_witness :
    from_stderr "Error -1743: Can't get application" = .PermissionDenied ∧
    from_stderr "" = .Script "" :=
  ⟨(from_stderr_priority "Error -1743: Can't get application").1 (by decide),
   (from_stderr_priority "").2.2.2.2 (by decide) (by decide) (by decide) (by decide)⟩

/-- C3: the `--filter` (and `--where`) value reaches `parse_filter` exactly as
given — `search` hands the very string to `search_with_filter` — and when
`parse_filter` fails, `search_with_filter` and `bulk_complete` return that
error unchanged (no retry, no partial result, the renderer and bulk executor
never run: the result holds for every `fmt`/`run_op`), and the process exits
with a non-zero status. -/
theorem filter_error_propagation
    (fmt : List Todo → String → OutputFormat → Except ClingsError String)
    (search_results : String → Except ClingsError (List Todo))
    (anytime : Except ClingsError (List Todo))
    (run_op : String → List Todo → Except ClingsError String)
    (stdin : Except String String) (today : Date)
    (q tag proj due : Option String) (f : String) (format : OutputFormat)
    (todos : List Todo) (dry_run skip : Bool) (limit : Nat) (e : ClingsError)
    (hparse : parse_filter f = .error e) :
    (search (.ok todos) search_results anytime fmt today q tag proj due
        (some f) format = search_with_filter (.ok todos) fmt today f format) ∧
    (search_with_filter (.ok todos) fmt today f format = .error e) ∧
    (mainExitCode (search_with_filter (.ok todos) fmt today f format) ≠ 0) ∧
    (bulk_complete (.ok todos) run_op stdin today (some f) dry_run skip limit
      = .error e) := by
  refine ⟨rfl, ?_, ?_, ?_⟩
  · simp [search_with_filter, hparse, Except.bind]
  · simp [search_with_filter, hparse, Except.bind, mainExitCode]
  · simp [bulk_complete, hparse, Except.bind]

/-- C3 witness: the malformed filter `(` propagates its parse error through
`search_with_filter` and `bulk_complete`, and the exit status is non-zero. -/
theorem filter_error_propagation_witness :
    search_with_filter (.ok []) (fun _ _ _ => .ok "") ⟨2026, 1, 1⟩ "(" .Pretty
      = .error (.Filter "Unexpected end of input") ∧
    mainExitCode (search_with_filter (.ok []) (fun _ _ _ => .ok "") ⟨2026, 1, 1⟩
      "(" .Pretty) ≠ 0 ∧
    bulk_complete (.ok []) (fun _ _ => .ok "") (.ok "yes") ⟨2026, 1, 1⟩
      (some "(") false false 50 = .error (.Filter "Unexpected end of input") := by
  have h := filter_error_propagation (fun _ _ _ => .ok "") (fun _ => .ok [])
    (.ok []) (fun _ _ => .ok "") (.ok "yes") ⟨2026, 1, 1⟩ none none none none
    "(" .Pretty [] false false 50 (.Filter "Unexpected end of input") rfl
  exact ⟨h.2.1, h.2.2.1, h.2.2.2⟩

/-- A token sequence that the parser consumes as exactly one `not_expr`
production — an atomic sub-expression at the precedence level of
`NOT`/comparison/parenthesized group — denoting `e`: whatever tokens follow
and with any sufficient fuel, `parseF` at the `not_expr` stage consumes
exactly these tokens and yields `e`. -/
def IsAtom (ta : List Token) (e : Expression) : Prop :=
  ∀ (fuel : Nat) (rest : List Token), 3 * ta.length + 1 ≤ fuel →
    parseF fuel .notE (ta ++ rest) = .ok (e, rest)

/-- The `OR` chain loop stops on any token other than `OR`. -/
theorem parseF_orRest_stop (n : Nat) (acc : Expression) (t : Token)
    (r : List Token) (h : t ≠ .orKw) :
    parseF (n + 1) (.orRest acc) (t :: r) = .ok (acc, t :: r) := by
  cases t <;> first | rfl | exact absurd rfl h

/-- The `AND` chain loop stops on any token other than `AND`. -/
theorem parseF_andRest_stop (n : Nat) (acc : Expression) (t : Token)
    (r : List Token) (h : t ≠ .andKw) :
    parseF (n + 1) (.andRest acc) (t :: r) = .ok (acc, t :: r) := by
  cases t <;> first | rfl | exact absurd rfl h

/-- An `and_expr` consisting of a single atom parses to that atom when the
next token is not `AND`. -/
theorem parseAnd_single (ta : List Token) (ea : Expression) (hA : IsAtom ta ea)
    (fuel : Nat) (t : Token) (r : List Token) (ht : t ≠ .andKw)
    (hf : 3 * ta.length + 3 ≤ fuel) :
    parseF fuel .andE (ta ++ t :: r) = .ok (ea, t :: r) := by
  cases fuel with
  | zero => omega
  | succ n =>
    show (parseF n .notE (ta ++ t :: r)).bind
      (fun er => parseF n (.andRest er.1) er.2) = _
    rw [hA n (t :: r) (by omega)]
    show parseF n (.andRest ea) (t :: r) = _
    cases n with
    | zero => omega
    | succ m => exact parseF_andRest_stop m ea t r ht


/-- An `and_expr` of the form `a AND b` parses to `And a b` when the next
token is not `AND`. -/
theorem parseAnd_pair (ta tb : List Token) (ea eb : Expression)
    (hA : IsAtom ta ea) (hB : IsAtom tb eb) (fuel : Nat) (t : Token)
    (r : List Token) (ht : t ≠ .andKw)
    (hf : 3 * ta.length + 3 * tb.length + 5 ≤ fuel) :
    parseF fuel .andE (ta ++ (.andKw :: (tb ++ (t :: r))))
      = .ok (.and ea eb, t :: r) := by
  cases fuel with
  | zero => omega
  | succ n =>
    show (parseF n .notE (ta ++ (.andKw :: (tb ++ (t :: r))))).bind
      (fun er => parseF n (.andRest er.1) er.2) = _
    rw [hA n (.andKw :: (tb ++ (t :: r))) (by omega)]
    show parseF n (.andRest ea) (.andKw :: (tb ++ (t :: r))) = _
    cases n with
    | zero => omega
    | succ m =>
      show (parseF m .notE (tb ++ (t :: r))).bind
        (fun er => parseF m (.andRest (Expression.and ea er.1)) er.2) = _
      rw [hB m (t :: r) (by omega)]
      show parseF m (.andRest (.and ea eb)) (t :: r) = _
      cases m with
      | zero => omega
      | succ k => exact parseF_andRest_stop k _ t r ht

/-- An `or_expr` consisting of a single atom parses to that atom when the
next token is neither `OR` nor `AND`. -/
theorem parseOr_single (ta : List Token) (ea : Expression) (hA : IsAtom ta ea)
    (fuel : Nat) (t : Token) (r : List Token) (ht1 : t ≠ .orKw)
    (ht2 : t ≠ .andKw) (hf : 3 * ta.length + 5 ≤ fuel) :
    parseF fuel .orE (ta ++ (t :: r)) = .ok (ea, t :: r) := by
  cases fuel with
  | zero => omega
  | succ n =>
    show (parseF n .andE (ta ++ (t :: r))).bind
      (fun er => parseF n (.orRest er.1) er.2) = _
    rw [parseAnd_single ta ea hA n t r ht2 (by omega)]
    show parseF n (.orRest ea) (t :: r) = _
    cases n with
    | zero => omega
    | succ m => exact parseF_orRest_stop m ea t r ht1

/-- An `or_expr` of the form `a AND b` (no `OR`) parses to `And a b` when
the next token is neither `OR` nor `AND`. -/
theorem parseOr_pairOnly (ta tb : List Token) (ea eb : Expression)
    (hA : IsAtom ta ea) (hB : IsAtom tb eb) (fuel : Nat) (t : Token)
    (r : List Token) (ht1 : t ≠ .orKw) (ht2 : t ≠ .andKw)
    (hf : 3 * ta.length + 3 * tb.length + 9 ≤ fuel) :
    parseF fuel .orE (ta ++ (.andKw :: (tb ++ (t :: r))))
      = .ok (.and ea eb, t :: r) := by
  cases fuel with
  | zero => omega
  | succ n =>
    show (parseF n .andE (ta ++ (.andKw :: (tb ++ (t :: r))))).bind
      (fun er => parseF n (.orRest er.1) er.2) = _
    rw [parseAnd_pair ta tb ea eb hA hB n t r ht2 (by omega)]
    show parseF n (.orRest (.and ea eb)) (t :: r) = _
    cases n with
    | zero => omega
    | succ m => exact parseF_orRest_stop m _ t r ht1

/-- `a AND b OR c` parses as `(a AND b) OR c`: the full `or_expr` chain with
`AND` binding tighter than `OR`. -/
theorem parseOr_chain (ta tb tc : List Token) (ea eb ec : Expression)
    (hA : IsAtom ta ea) (hB : IsAtom tb eb) (hC : IsAtom tc ec) (fuel : Nat)
    (t : Token) (r : List Token) (ht1 : t ≠ .orKw) (ht2 : t ≠ .andKw)
    (hf : 3 * ta.length + 3 * tb.length + 3 * tc.length + 11 ≤ fuel) :
    parseF fuel .orE (ta ++ (.andKw :: (tb ++ (.orKw :: (tc ++ (t :: r))))))
      = .ok (.or (.and ea eb) ec, t :: r) := by
  cases fuel with
  | zero => omega
  | succ n =>
    show (parseF n .andE (ta ++ (.andKw :: (tb ++ (.orKw :: (tc ++ (t :: r))))))).bind
      (fun er => parseF n (.orRest er.1) er.2) = _
    rw [parseAnd_pair ta tb ea eb hA hB n .orKw (tc ++ (t :: r))
      (by decide) (by omega)]
    show parseF n (.orRest (.and ea eb)) (.orKw :: (tc ++ (t :: r))) = _
    cases n with
    | zero => omega
    | succ m =>
      show (parseF m .andE (tc ++ (t :: r))).bind
        (fun er => parseF m (.orRest (Expression.or (.and ea eb) er.1)) er.2) = _
      rw [parseAnd_single tc ec hC m t r ht2 (by omega)]
      show parseF m (.orRest (.or (.and ea eb) ec)) (t :: r) = _
      cases m with
      | zero => omega
      | succ k => exact parseF_orRest_stop k _ t r ht1

/-- `NOT` prefixes preserve atomicity: `NOT a` is again an atom, denoting the
negation. -/
theorem isAtom_not (ta : List Token) (ea : Expression) (hA : IsAtom ta ea) :
    IsAtom (.notKw :: ta) (.not ea) := by
  intro fuel rest hf
  simp only [List.length_cons] at hf
  cases fuel with
  | zero => omega
  | succ n =>
    show (parseF n .notE (ta ++ rest)).map
      (fun er => (Expression.not er.1, er.2)) = _
    rw [hA n rest (by omega)]
    rfl

/-- Parenthesization preserves atomicity: `( a )` is an atom denoting the
same expression. -/
theorem isAtom_paren (ta : List Token) (ea : Expression) (hA : IsAtom ta ea) :
    IsAtom ((.lparen :: ta) ++ [.rparen]) ea := by
  intro fuel rest hf
  simp only [List.length_cons, List.length_append, List.length_nil] at hf
  cases fuel with
  | zero => omega
  | succ n =>
    show (parseF n .orE ((ta ++ [.rparen]) ++ rest)).bind
      (fun er => match er.2 with
        | .rparen :: r2 => .ok (er.1, r2)
        | _ => .error .UnbalancedParens) = _
    rw [List.append_assoc]
    rw [show ([Token.rparen] ++ rest : List Token) = .rparen :: rest from rfl]
    rw [parseOr_single ta ea hA n .rparen rest (by decide) (by decide) (by omega)]
    rfl

/-- A parenthesized `a AND b` group followed by anything that is not `AND`
parses, at the `and_expr` stage, to `And a b` with the group consumed. -/
theorem parseAnd_paren (ta tb : List Token) (ea eb : Expression)
    (hA : IsAtom ta ea) (hB : IsAtom tb eb) (fuel : Nat) (t : Token)
    (r : List Token) (ht : t ≠ .andKw)
    (hf : 3 * ta.length + 3 * tb.length + 12 ≤ fuel) :
    parseF fuel .andE (.lparen :: (ta ++ (.andKw :: (tb ++ (.rparen :: (t :: r))))))
      = .ok (.and ea eb, t :: r) := by
  cases fuel with
  | zero => omega
  | succ n =>
    show (parseF n .notE
        (.lparen :: (ta ++ (.andKw :: (tb ++ (.rparen :: (t :: r))))))).bind
      (fun er => parseF n (.andRest er.1) er.2) = _
    cases n with
    | zero => omega
    | succ m =>
      rw [show parseF (m + 1) .notE
            (.lparen :: (ta ++ (.andKw :: (tb ++ (.rparen :: (t :: r)))))) =
          (parseF m .orE (ta ++ (.andKw :: (tb ++ (.rparen :: (t :: r)))))).bind
            (fun er => match er.2 with
              | .rparen :: r2 => .ok (er.1, r2)
              | _ => .error .UnbalancedParens) from rfl]
      rw [parseOr_pairOnly ta tb ea eb hA hB m .rparen (t :: r)
        (by decide) (by decide) (by omega)]
      show parseF (m + 1) (.andRest (.and ea eb)) (t :: r) = _
      exact parseF_andRest_stop m _ t r ht

/-- `( a AND b ) OR c` parses as `Or (And a b) c`: the parenthesized group
then the `OR` chain. -/
theorem parseOr_parenAndOr (ta tb tc : List Token) (ea eb ec : Expression)
    (hA : IsAtom ta ea) (hB : IsAtom tb eb) (hC : IsAtom tc ec) (fuel : Nat)
    (t : Token) (r : List Token) (ht1 : t ≠ .orKw) (ht2 : t ≠ .andKw)
    (hf : 3 * ta.length + 3 * tb.length + 3 * tc.length + 20 ≤ fuel) :
    parseF fuel .orE
        (.lparen :: (ta ++ (.andKw :: (tb ++ (.rparen :: (.orKw :: (tc ++ (t :: r))))))))
      = .ok (.or (.and ea eb) ec, t :: r) := by
  cases fuel with
  | zero => omega
  | succ n =>
    show (parseF n .andE
        (.lparen :: (ta ++ (.andKw :: (tb ++ (.rparen :: (.orKw :: (tc ++ (t :: r))))))))).bind
      (fun er => parseF n (.orRest er.1) er.2) = _
    rw [parseAnd_paren ta tb ea eb hA hB n .orKw (tc ++ (t :: r))
      (by decide) (by omega)]
    show parseF n (.orRest (.and ea eb)) (.orKw :: (tc ++ (t :: r))) = _
    cases n with
    | zero => omega
    | succ m =>
      show (parseF m .andE (tc ++ (t :: r))).bind
        (fun er => parseF m (.orRest (Expression.or (.and ea eb) er.1)) er.2) = _
      rw [parseAnd_single tc ec hC m t r ht2 (by omega)]
      show parseF m (.orRest (.or (.and ea eb) ec)) (t :: r) = _
      cases m with
      | zero => omega
      | succ k => exact parseF_orRest_stop k _ t r ht1

/-- `parse` succeeds with `e` when the `or_expr` pass consumes everything but
the `Eof` terminator. -/
theorem parse_okOf (ts : List Token) (e : Expression)
    (h : parseF (5 * ts.length + 5) .orE ts = .ok (e, [.eof])) :
    parse ts = .ok e := by
  unfold parse
  rw [h]
  rfl

/-- C2: the parser gives `OR` lower precedence than `AND` and `AND` lower
precedence than `NOT`. For all sub-expressions `a`, `b`, `c` given as
atomic-level token sequences (which include parenthesized groups and
`NOT`-prefixed forms, by `isAtom_paren` and `isAtom_not`): the token text
`a AND b OR c` parses to an AST structurally equal to the parse of
`(a AND b) OR c` — both are `Or (And a b) c` — and `NOT a AND b` parses
structurally equal to `(NOT a) AND b` — both are `And (Not a) b`. -/
theorem parser_precedence (ta tb tc : List Token) (ea eb ec : Expression)
    (hA : IsAtom ta ea) (hB : IsAtom tb eb) (hC : IsAtom tc ec) :
    parse (ta ++ (.andKw :: (tb ++ (.orKw :: (tc ++ [.eof])))))
      = .ok (.or (.and ea eb) ec) ∧
    parse (.lparen :: (ta ++ (.andKw :: (tb ++ (.rparen :: (.orKw :: (tc ++ [.eof])))))))
      = .ok (.or (.and ea eb) ec) ∧
    parse (.notKw :: (ta ++ (.andKw :: (tb ++ [.eof]))))
      = .ok (.and (.not ea) eb) ∧
    parse (.lparen :: (.notKw :: (ta ++ (.rparen :: (.andKw :: (tb ++ [.eof]))))))
      = .ok (.and (.not ea) eb) := by
  refine ⟨?_, ?_, ?_, ?_⟩
  · apply parse_okOf
    exact parseOr_chain ta tb tc ea eb ec hA hB hC _ .eof [] (by decide)
      (by decide)
      (by simp only [List.length_append, List.length_cons, List.length_nil]; omega)
  · apply parse_okOf
    exact parseOr_parenAndOr ta tb tc ea eb ec hA hB hC _ .eof [] (by decide)
      (by decide)
      (by simp only [List.length_append, List.length_cons, List.length_nil]; omega)
  · apply parse_okOf
    exact parseOr_pairOnly (.notKw :: ta) tb (.not ea) eb
      (isAtom_not ta ea hA) hB _ .eof [] (by decide) (by decide)
      (by simp only [List.length_append, List.length_cons, List.length_nil]; omega)
  · apply parse_okOf
    rw [show (Token.lparen :: (Token.notKw :: (ta ++ (Token.rparen :: (Token.andKw :: (tb ++ [Token.eof]))))))
        = ((Token.lparen :: (Token.notKw :: ta)) ++ [Token.rparen]) ++ (Token.andKw :: (tb ++ (Token.eof :: [])))
      from by simp]
    exact parseOr_pairOnly ((.lparen :: (.notKw :: ta)) ++ [.rparen]) tb
      (.not ea) eb (isAtom_paren (.notKw :: ta) (.not ea) (isAtom_not ta ea hA))
      hB
      (5 * (((Token.lparen :: (Token.notKw :: ta)) ++ [Token.rparen])
        ++ (Token.andKw :: (tb ++ (Token.eof :: [])))).length + 5)
      .eof [] (by decide) (by decide)
      (by simp only [List.length_append, List.length_cons, List.length_nil]; omega)

/-- The atom `status = 'open'`. -/
theorem isAtom_status_open :
    IsAtom [.ident "status", .opEq, .strLit "open"]
      (.comparison .Status .Equals (some (.text "open"))) := by
  intro fuel rest hf
  cases fuel with
  | zero => exact absurd hf (by decide)
  | succ n => rfl

/-- The atom `name LIKE 'x'`. -/
theorem isAtom_name_like :
    IsAtom [.ident "name", .opLike, .strLit "x"]
      (.comparison .Name .Like (some (.text "x"))) := by
  intro fuel rest hf
  cases fuel with
  | zero => exact absurd hf (by decide)
  | succ n => rfl

/-- The atom `tags CONTAINS 'y'`. -/
theorem isAtom_tags_contains :
    IsAtom [.ident "tags", .opContains, .strLit "y"]
      (.comparison .Tags .Contains (some (.text "y"))) := by
  intro fuel rest hf
  cases fuel with
  | zero => exact absurd hf (by decide)
  | succ n => rfl

/-- C2 witness: concrete atoms `status = 'open'`, `name LIKE 'x'`,
`tags CONTAINS 'y'` assembled into `a AND b OR c`, `(a AND b) OR c`,
`NOT a AND b` and `(NOT a) AND b`. -/
theorem parser_precedence_witness :
    parse [.ident "status", .opEq, .strLit "open", .andKw,
           .ident "name", .opLike, .strLit "x", .orKw,
           .ident "tags", .opContains, .strLit "y", .eof]
      = .ok (.or
          (.and (.comparison .Status .Equals (some (.text "open")))
            (.comparison .Name .Like (some (.text "x"))))
          (.comparison .Tags .Contains (some (.text "y")))) ∧
    parse [.lparen, .ident "status", .opEq, .strLit "open", .andKw,
           .ident "name", .opLike, .strLit "x", .rparen, .orKw,
           .ident "tags", .opContains, .strLit "y", .eof]
      = .ok (.or
          (.and (.comparison .Status .Equals (some (.text "open")))
            (.comparison .Name .Like (some (.text "x"))))
          (.comparison .Tags .Contains (some (.text "y")))) ∧
    parse [.notKw, .ident "status", .opEq, .strLit "open", .andKw,
           .ident "name", .opLike, .strLit "x", .eof]
      = .ok (.and (.not (.comparison .Status .Equals (some (.text "open"))))
          (.comparison .Name .Like (some (.text "x")))) ∧
    parse [.lparen, .notKw, .ident "status", .opEq, .strLit "open", .rparen,
           .andKw, .ident "name", .opLike, .strLit "x", .eof]
      = .ok (.and (.not (.comparison .Status .Equals (some (.text "open"))))
          (.comparison .Name .Like (some (.text "x")))) := by
  have h := parser_precedence
    [.ident "status", .opEq, .strLit "open"]
    [.ident "name", .opLike, .strLit "x"]
    [.ident "tags", .opContains, .strLit "y"]
    (.comparison .Status .Equals (some (.text "open")))
    (.comparison .Name .Like (some (.text "x")))
    (.comparison .Tags .Contains (some (.text "y")))
    isAtom_status_open isAtom_name_like isAtom_tags_contains
  exact ⟨h.1, h.2.1, h.2.2.1, h.2.2.2⟩


/-- Hexadecimal digits written by `escJsonChar` are read back by `hexVal`. -/
theorem hexVal_hexDigit (n : Nat) (h : n < 16) : hexVal (hexDigit n) = some n := by
  interval_cases n <;> decide

/-- A short escape emitted for character `d` decodes back to `d`, whatever
follows it. -/
theorem parseJsonBody_short (e d : Char) (t : List Char) (hu : e ≠ 'u')
    (hd : unescape e = some d) :
    parseJsonBody ('\\' :: e :: t) = (parseJsonBody t).map (d :: ·) := by
  rcases t with _ | ⟨a, _ | ⟨b, _ | ⟨c2, _ | ⟨d2, r⟩⟩⟩⟩
  · rw [parseJsonBody.eq_4 e []
      (by intro x1 x2 x3 x4 r2 h; simp at h), if_neg hu, hd]
  · rw [parseJsonBody.eq_4 e [a]
      (by intro x1 x2 x3 x4 r2 h; simp at h), if_neg hu, hd]
  · rw [parseJsonBody.eq_4 e [a, b]
      (by intro x1 x2 x3 x4 r2 h; simp at h), if_neg hu, hd]
  · rw [parseJsonBody.eq_4 e [a, b, c2]
      (by intro x1 x2 x3 x4 r2 h; simp at h), if_neg hu, hd]
  · rw [parseJsonBody.eq_3, if_neg hu, hd]

/-- One escaped character is decoded back, whatever follows it. -/
theorem escJson_step (c : Char) (t : List Char) :
    parseJsonBody (escJsonChar c ++ t) = (parseJsonBody t).map (c :: ·) := by
  by_cases h1 : c = '"'
  · subst h1
    have he : escJsonChar '"' = ['\\', '"'] := by simp [escJsonChar]
    rw [he]
    show parseJsonBody ('\\' :: '"' :: t) = _
    rw [parseJsonBody_short '"' '"' t (by decide) (by decide)]
  by_cases h2 : c = '\\'
  · subst h2
    have he : escJsonChar '\\' = ['\\', '\\'] := by simp [escJsonChar]
    rw [he]
    show parseJsonBody ('\\' :: '\\' :: t) = _
    rw [parseJsonBody_short '\\' '\\' t (by decide) (by decide)]
  by_cases h3 : c.toNat = 8
  · have hc : Char.ofNat 8 = c := by rw [← h3]; exact Char.ofNat_toNat c
    have he : escJsonChar c = ['\\', 'b'] := by simp [escJsonChar, h1, h2, h3]
    rw [he]
    show parseJsonBody ('\\' :: 'b' :: t) = _
    rw [parseJsonBody_short 'b' (Char.ofNat 8) t (by decide) (by decide), hc]
  by_cases h4 : c.toNat = 9
  · have hc : Char.ofNat 9 = c := by rw [← h4]; exact Char.ofNat_toNat c
    have he : escJsonChar c = ['\\', 't'] := by simp [escJsonChar, h1, h2, h3, h4]
    rw [he]
    show parseJsonBody ('\\' :: 't' :: t) = _
    rw [parseJsonBody_short 't' (Char.ofNat 9) t (by decide) (by decide), hc]
  by_cases h5 : c.toNat = 10
  · have hc : Char.ofNat 10 = c := by rw [← h5]; exact Char.ofNat_toNat c
    have he : escJsonChar c = ['\\', 'n'] := by
      simp [escJsonChar, h1, h2, h3, h4, h5]
    rw [he]
    show parseJsonBody ('\\' :: 'n' :: t) = _
    rw [parseJsonBody_short 'n' (Char.ofNat 10) t (by decide) (by decide), hc]
  by_cases h6 : c.toNat = 12
  · have hc : Char.ofNat 12 = c := by rw [← h6]; exact Char.ofNat_toNat c
    have he : escJsonChar c = ['\\', 'f'] := by
      simp [escJsonChar, h1, h2, h3, h4, h5, h6]
    rw [he]
    show parseJsonBody ('\\' :: 'f' :: t) = _
    rw [parseJsonBody_short 'f' (Char.ofNat 12) t (by decide) (by decide), hc]
  by_cases h7 : c.toNat = 13
  · have hc : Char.ofNat 13 = c := by rw [← h7]; exact Char.ofNat_toNat c
    have he : escJsonChar c = ['\\', 'r'] := by
      simp [escJsonChar, h1, h2, h3, h4, h5, h6, h7]
    rw [he]
    show parseJsonBody ('\\' :: 'r' :: t) = _
    rw [parseJsonBody_short 'r' (Char.ofNat 13) t (by decide) (by decide), hc]
  by_cases h8 : c.toNat < 32
  · have he : escJsonChar c =
        ['\\', 'u', '0', '0', hexDigit (c.toNat / 16), hexDigit (c.toNat % 16)] := by
      simp [escJsonChar, h1, h2, h3, h4, h5, h6, h7, h8]
    have hq : hexQuad '0' '0' (hexDigit (c.toNat / 16)) (hexDigit (c.toNat % 16))
        = some c.toNat := by
      unfold hexQuad
      rw [show hexVal '0' = some 0 from by decide,
        hexVal_hexDigit _ (by omega), hexVal_hexDigit _ (by omega)]
      show some (((0 * 16 + 0) * 16 + c.toNat / 16) * 16 + c.toNat % 16)
        = some c.toNat
      exact congrArg some (by omega)
    rw [he]
    show parseJsonBody
      ('\\' :: 'u' :: '0' :: '0' :: hexDigit (c.toNat / 16)
        :: hexDigit (c.toNat % 16) :: t) = _
    rw [parseJsonBody.eq_3, if_pos rfl]
    show (match hexQuad '0' '0' (hexDigit (c.toNat / 16)) (hexDigit (c.toNat % 16)) with
          | some v =>
            if 0xD800 ≤ v ∧ v < 0xE000 then none
            else (parseJsonBody t).map (Char.ofNat v :: ·)
          | none => none) = _
    rw [hq]
    show (if 0xD800 ≤ c.toNat ∧ c.toNat < 0xE000 then none
          else (parseJsonBody t).map (Char.ofNat c.toNat :: ·)) = _
    rw [if_neg (by omega), Char.ofNat_toNat]
  · have he : escJsonChar c = [c] := by
      simp [escJsonChar, h1, h2, h3, h4, h5, h6, h7, h8]
    rw [he]
    show parseJsonBody (c :: t) = _
    rw [parseJsonBody.eq_5 c t (fun h => h1 h) (fun _ _ hc _ => h2 hc), if_neg h8]

/-- Decoding the escaped body followed by the closing quote recovers the
original character list. -/
theorem escJson_body (cs : List Char) :
    parseJsonBody (cs.flatMap escJsonChar ++ ['"']) = some cs := by
  induction cs with
  | nil => rfl
  | cons c cs ih =>
    rw [List.flatMap_cons, List.append_assoc, escJson_step, ih]
    rfl

/-- C10: `js_string` emits a double-quoted JSON string literal that a strict
JSON string parser decodes back to exactly the input, for every string —
including quotes, backslashes, control characters and non-ASCII text. -/
theorem js_string_roundtrip (s : String) : parseJsonString (js_string s) = some s := by
  obtain ⟨d⟩ := s
  have h := escJson_body d
  simp [parseJsonString, js_string, h]

end Clings
